import Mathlib

/-
  Verification of the crypto monitoring repository (spot volume-spike and
  futures open-interest alerting).

  The repository contains several variants of the same monitor:
    - monitor.py            : class Monitor (spot + futures + dedup cache)
    - crypto_spy.py         : one-shot GitHub-Actions variant (HISTORY deques)
    - python:crypto_monitor.py : loop variant (per-base 6-point history)
    - crypto_monitor.py     : EnhancedCryptoMonitor (24h-ticker based)

  Prices, volumes and open interest (Python floats) are modelled as rationals;
  timestamps (milliseconds or seconds) as integers.  Python truthiness tests
  on floats (if x:) are modelled as nonzero tests; absent/failed values as
  Option.  Dedup-cache keys, which in the source are f-strings such as
  spot:EX:SYMBOL:TS and oi:SYMBOL:WINDOW, are modelled by an inductive key
  type that is injective in the same components; the Python dict is modelled
  as an insertion-ordered association list.
-/

-- ---------------------------------------------------------------------------
-- Constants (monitor.py lines 50-62, python:crypto_monitor.py lines 35-42,
-- crypto_spy.py thresholds appear inline in main)
-- ---------------------------------------------------------------------------

def SPOT_MIN_USD_VALUE : ℚ := 50000

def SPOT_MIN_MOVE : ℚ := 2 / 100

def FUTURES_OI_WINDOW_MIN : Int := 5

def FUTURES_OI_MIN_GROWTH : ℚ := 5 / 100

def DEFAULT_LOOP_INTERVAL : ℚ := 20

def DEDUP_TTL_SECONDS : Int := 10 * 60

def OI_DEQUE_MAXLEN : Nat := 60

-- ---------------------------------------------------------------------------
-- Data model
-- ---------------------------------------------------------------------------

/-- Candidate spot venues appearing in the source (SPOT_CANDIDATES in
monitor.py, EXCHANGES in crypto_spy.py / python:crypto_monitor.py). -/
inductive Venue where
  | binance
  | okx
  | bybit
  | kucoin
  | bitget
  | mexc
  | gate
deriving DecidableEq

/-- One OHLCV row as used by monitor.py check_spot_alert: fields are run
through safe_float, so each may be absent (None). -/
structure Candle where
  ts : Int
  o : Option ℚ
  h : Option ℚ
  l : Option ℚ
  c : Option ℚ
  vol : Option ℚ
deriving DecidableEq

/-- Payload of a spot alert message (monitor.py _format_spot_msg inputs). -/
structure SpotAlert where
  o : ℚ
  c : ℚ
  volBase : ℚ
  volQuote : ℚ
  ts : Int
deriving DecidableEq

/-- Payload of a futures OI alert message (monitor.py _format_oi_msg inputs). -/
structure OiAlert where
  oiOld : ℚ
  oiNew : ℚ
  ts : Int
deriving DecidableEq

-- ---------------------------------------------------------------------------
-- monitor.py : Monitor.check_spot_alert (lines 295-327)
-- ---------------------------------------------------------------------------

/-- Embedding of Monitor.check_spot_alert after the fetch succeeded: takes the
fetched OHLCV rows, reads the second-to-last row (the last closed candle),
discards falsy open/close/volume (None or 0.0, the Python test
if not (o and c and vol_base)), and fires when the estimated quote volume and
the absolute open-to-close move cross the thresholds.  Returns the alert
payload handed to _format_spot_msg, or none. -/
def check_spot_alert (ohlcvs : List Candle) : Option SpotAlert :=
  if ohlcvs.length < 2 then none
  else
    match ohlcvs.get? (ohlcvs.length - 2) with
    | none => none
    | some cd =>
      match cd.o, cd.c, cd.vol with
      | some o, some c, some volBase =>
        if o = 0 ∨ c = 0 ∨ volBase = 0 then none
        else
          let volQuote := c * volBase
          let move := |(c - o) / o|
          if SPOT_MIN_USD_VALUE ≤ volQuote ∧ SPOT_MIN_MOVE ≤ move then
            some ⟨o, c, volBase, volQuote, cd.ts⟩
          else none
      | _, _, _ => none

-- ---------------------------------------------------------------------------
-- monitor.py : Monitor.check_futures_oi_alert (lines 329-363)
-- ---------------------------------------------------------------------------

/-- The loop of check_futures_oi_alert that keeps overwriting older with each
point whose timestamp is at or before the cutoff: the result is the last such
point in deque order. -/
def findOlder (q : List (Int × ℚ)) (cutoff : Int) : Option (Int × ℚ) :=
  q.foldl (fun acc p => if p.1 ≤ cutoff then some p else acc) none

/-- Append to the oi_history deque, which has maxlen 60 (monitor.py line 252):
when the deque is full the leftmost point is dropped. -/
def oiAppend (q : List (Int × ℚ)) (ts : Int) (v : ℚ) : List (Int × ℚ) :=
  let q2 := q ++ [(ts, v)]
  if OI_DEQUE_MAXLEN < q2.length then q2.tail else q2

/-- The growth test of check_futures_oi_alert: Python tests if oi_old: (truthy,
i.e. nonzero) and then growth >= FUTURES_OI_MIN_GROWTH. -/
def oiGrowthFires (oiOld oiNow : ℚ) : Bool :=
  if oiOld ≠ 0 ∧ FUTURES_OI_MIN_GROWTH ≤ (oiNow - oiOld) / oiOld then true else false

/-- Embedding of Monitor.check_futures_oi_alert: a failed fetch (oiNow = none)
returns without touching the history; otherwise the new point is appended, the
last point at or before now minus the 5-minute window is located, and the
growth test decides the alert.  Returns the alert (if any) and the updated
history. -/
def check_futures_oi_alert (q : List (Int × ℚ)) (oiNow : Option ℚ) (now : Int) :
    Option OiAlert × List (Int × ℚ) :=
  match oiNow with
  | none => (none, q)
  | some oi =>
    let q2 := oiAppend q now oi
    let cutoff := now - FUTURES_OI_WINDOW_MIN * 60 * 1000
    match findOlder q2 cutoff with
    | none => (none, q2)
    | some older =>
      if oiGrowthFires older.2 oi then (some ⟨older.2, oi, now⟩, q2) else (none, q2)

-- ---------------------------------------------------------------------------
-- monitor.py : Monitor._dedup (lines 256-270) and the keys built at the call
-- sites (lines 323 and 358-359)
-- ---------------------------------------------------------------------------

/-- Dedup-cache keys.  monitor.py builds the f-strings
spot:EXCHANGE:SYMBOL:CANDLE_TS and oi:SYMBOL:WINDOW_KEY; this inductive is
injective in the same components.  Symbols are coded as naturals. -/
inductive AlertKey where
  | spot (venue : Venue) (symbol : Nat) (candleTs : Int) : AlertKey
  | oi (symbol : Nat) (windowKey : Int) : AlertKey
deriving DecidableEq

/-- dict.get on the insertion-ordered association list. -/
def cacheGet : List (AlertKey × Int) → AlertKey → Option Int
  | [], _ => none
  | e :: rest, k => if e.1 = k then some e.2 else cacheGet rest k

/-- dict assignment: replace in place, or append when absent. -/
def cacheSet : List (AlertKey × Int) → AlertKey → Int → List (AlertKey × Int)
  | [], k, t => [(k, t)]
  | e :: rest, k, t => if e.1 = k then (k, t) :: rest else e :: cacheSet rest k t

/-- Embedding of Monitor._dedup.  Returns true (suppress) when the key has a
truthy recorded time within the TTL; otherwise records now for the key, purges
every entry whose age reaches the TTL, and returns false (may send). -/
def dedup (cache : List (AlertKey × Int)) (k : AlertKey) (now : Int) :
    Bool × List (AlertKey × Int) :=
  match cacheGet cache k with
  | some ts =>
    if ts ≠ 0 ∧ now - ts < DEDUP_TTL_SECONDS then (true, cache)
    else
      (false, (cacheSet cache k now).filter
        (fun p => decide (now - p.2 < DEDUP_TTL_SECONDS)))
  | none =>
    (false, (cacheSet cache k now).filter
      (fun p => decide (now - p.2 < DEDUP_TTL_SECONDS)))

/-- Runs the dedup gate over a sequence of triggered alerts (key and trigger
time) and returns the subsequence that is actually dispatched, threading the
cache exactly as the Monitor instance does. -/
def runDedup : List (AlertKey × Int) → List (AlertKey × Int) → List (AlertKey × Int)
  | _, [] => []
  | cache, op :: ops =>
    let r := dedup cache op.1 op.2
    if r.1 then runDedup r.2 ops else op :: runDedup r.2 ops

-- ---------------------------------------------------------------------------
-- monitor.py : run_forever sleep (lines 387-389) and the other schedulers
-- ---------------------------------------------------------------------------

/-- monitor.py run_forever: sleep_sec = max(1.0, DEFAULT_LOOP_INTERVAL - elapsed). -/
def run_forever_sleep (elapsed : ℚ) : ℚ :=
  max 1 (DEFAULT_LOOP_INTERVAL - elapsed)

/-- python:crypto_monitor.py main loop: sleep_time = max(1.0, LOOP_INTERVAL - elapsed). -/
def pcm_loop_sleep (loopInterval elapsed : ℚ) : ℚ :=
  max 1 (loopInterval - elapsed)

/-- crypto_monitor.py EnhancedCryptoMonitor.start_monitoring: sleeps the full
configured monitor_interval, ignoring the elapsed cycle time. -/
def enhanced_monitor_sleep (monitorInterval _elapsed : ℚ) : ℚ :=
  monitorInterval

-- ---------------------------------------------------------------------------
-- crypto_spy.py : best_spot_ex (lines 70-85)
-- ---------------------------------------------------------------------------

/-- Outcome of probing one candidate venue for a symbol in best_spot_ex: the
venue does not list the symbol, the load/fetch raised (excluded by continue),
or a ticker with its 24h quoteVolume was obtained. -/
inductive SpyFetch where
  | unlisted : SpyFetch
  | failed : SpyFetch
  | ticker (quoteVolume : ℚ) : SpyFetch
deriving DecidableEq

/-- One loop iteration of best_spot_ex: the running best is replaced only when
the candidate produced a ticker whose volume strictly exceeds the running
best volume. -/
def bestSpotStep (acc : Option Venue × ℚ) (cand : Venue × SpyFetch) :
    Option Venue × ℚ :=
  match cand.2 with
  | .unlisted => acc
  | .failed => acc
  | .ticker v => if acc.2 < v then (some cand.1, v) else acc

/-- Embedding of crypto_spy.py best_spot_ex: fold over the fixed candidate
list starting from best, best_vol = None, 0. -/
def best_spot_ex (cands : List (Venue × SpyFetch)) : Option Venue :=
  (cands.foldl bestSpotStep (none, 0)).1

-- ---------------------------------------------------------------------------
-- crypto_spy.py : spot_vol_price (lines 87-98) and the spot branch of main
-- (lines 128-142)
-- ---------------------------------------------------------------------------

/-- Embedding of crypto_spy.py spot_vol_price.  The input is the fetched 1m
OHLCV list, reduced to the fields the function reads: (close, baseVolume) per
row.  It needs at least two rows; the notional volume is taken from the LAST
row (close times base volume) and the percentage change compares the last two
closes.  A zero previous close raises ZeroDivisionError, caught by the bare
except which returns None, None. -/
def spot_vol_price (ohlcv : List (ℚ × ℚ)) : Option (ℚ × ℚ) :=
  if ohlcv.length < 2 then none
  else
    match ohlcv.getLast?, ohlcv.get? (ohlcv.length - 2) with
    | some last, some prev =>
      if prev.1 = 0 then none
      else some (last.2 * last.1, (last.1 - prev.1) / prev.1 * 100)
    | _, _ => none

/-- The spot alert decision of crypto_spy.py main: skip when spot_vol_price
returned None, otherwise fire when the 1-minute notional volume is at least
50,000 and the absolute percentage change is at least 2. -/
def spySpotFires (ohlcv : List (ℚ × ℚ)) : Bool :=
  match spot_vol_price ohlcv with
  | none => false
  | some m => if 50000 ≤ m.1 ∧ 2 ≤ |m.2| then true else false

-- ---------------------------------------------------------------------------
-- crypto_spy.py : the futures branch of main (lines 113-126)
-- ---------------------------------------------------------------------------

def SPY_OI_MAXLEN : Nat := 6

/-- Append to HISTORY[s].oi, a deque with maxlen 6. -/
def spyOiAppend (hist : List ℚ) (o : ℚ) : List ℚ :=
  let h2 := hist ++ [o]
  if SPY_OI_MAXLEN < h2.length then h2.tail else h2

/-- The futures alert decision of crypto_spy.py main after appending the new
open interest o: only evaluated once the deque holds exactly 6 points;
old is the leftmost point; fires when old is truthy and the growth is
STRICTLY greater than 0.05. -/
def spyOiFires (hist : List ℚ) (o : ℚ) : Bool :=
  let h2 := spyOiAppend hist o
  if h2.length = SPY_OI_MAXLEN then
    match h2.head? with
    | some old =>
      if old ≠ 0 ∧ FUTURES_OI_MIN_GROWTH < (o - old) / old then true else false
    | none => false
  else false

/-- Embedding of one symbol iteration of crypto_spy.py main: the futures leg
runs first (a failed OI fetch skips the whole symbol); the spot leg runs only
when a spot venue was selected and spot_vol_price returned data.  Returns
(futures alert fired, spot alert fired, updated OI history). -/
def spyProcessSymbol (oiVal : Option ℚ) (oiHist : List ℚ) (spotEx : Option Venue)
    (spotCandles : Option (List (ℚ × ℚ))) : Bool × Bool × List ℚ :=
  match oiVal with
  | none => (false, false, oiHist)
  | some o =>
    let h2 := spyOiAppend oiHist o
    let oiAlert := spyOiFires oiHist o
    match spotEx with
    | none => (oiAlert, false, h2)
    | some _ =>
      match spotCandles with
      | none => (oiAlert, false, h2)
      | some candles => (oiAlert, spySpotFires candles, h2)

-- ---------------------------------------------------------------------------
-- monitor.py : pick_top_spot_exchange (lines 157-180) together with
-- estimate_exchange_24h_quote_volume (lines 128-154)
-- ---------------------------------------------------------------------------

/-- Outcome of probing one candidate in pick_top_spot_exchange: constructing
or loading the exchange raised (skipped), fetch_tickers raised inside
estimate_exchange_24h_quote_volume, or the estimated total 24h quote volume. -/
inductive PickFetch where
  | initFail : PickFetch
  | tickersFail : PickFetch
  | ok (totalQuoteVolume : ℚ) : PickFetch
deriving DecidableEq

/-- estimate_exchange_24h_quote_volume returns 0.0 when fetch_tickers raises,
else the estimated total. -/
def estimate_exchange_24h_quote_volume : PickFetch → ℚ
  | .initFail => 0
  | .tickersFail => 0
  | .ok v => v

/-- Embedding of monitor.py pick_top_spot_exchange: fold over the candidates
from best_ex, best_vol = None, -1.0; a candidate whose construction raised is
skipped, but a candidate whose fetch_tickers raised contributes volume 0.0
(from estimate_exchange_24h_quote_volume) and can still become best; when no
candidate survived at all, the function falls back to binance. -/
def pick_top_spot_exchange (cands : List (Venue × PickFetch)) : Option Venue :=
  let r := cands.foldl (fun acc cand =>
    match cand.2 with
    | .initFail => acc
    | f =>
      let vol := estimate_exchange_24h_quote_volume f
      if acc.2 < vol then (some cand.1, vol) else acc) ((none : Option Venue), (-1 : ℚ))
  match r.1 with
  | none => some Venue.binance
  | some n => some n

-- ---------------------------------------------------------------------------
-- python:crypto_monitor.py : get_spot_1m_metrics (lines 205-238)
-- ---------------------------------------------------------------------------

structure SpotMetrics where
  usdVolume1m : ℚ
  priceChangePct : ℚ
  lastClose : ℚ
deriving DecidableEq

/-- Embedding of python:crypto_monitor.py get_spot_1m_metrics.  Rows reduced
to (close, baseVolume).  Needs at least two rows; the notional volume is the
last row's base volume times its close; the percentage change compares the
last two closes, guarded by prev_close > 0 (else 0.0). -/
def get_spot_1m_metrics (ohlcvs : List (ℚ × ℚ)) : Option SpotMetrics :=
  if ohlcvs.length < 2 then none
  else
    match ohlcvs.get? (ohlcvs.length - 2), ohlcvs.getLast? with
    | some prev, some last =>
      let usdVolume := last.2 * last.1
      let pct := if 0 < prev.1 then (last.1 - prev.1) / prev.1 * 100 else 0
      some ⟨usdVolume, pct, last.1⟩
    | _, _ => none

-- ---------------------------------------------------------------------------
-- python:crypto_monitor.py : the per-symbol body of main (lines 352-413)
-- ---------------------------------------------------------------------------

/-- One history entry appended every cycle (python:crypto_monitor.py lines
389-393): timestamp, the fetched OI (None when the fetch failed) and the last
close (None when spot metrics were unavailable). -/
structure PcmHistItem where
  ts : Int
  oi : Option ℚ
  price : Option ℚ
deriving DecidableEq

def PCM_HIST_MAXLEN : Nat := 6

/-- Append to history[base], a deque with maxlen 6. -/
def pcmHistAppend (hist : List PcmHistItem) (item : PcmHistItem) : List PcmHistItem :=
  let h2 := hist ++ [item]
  if PCM_HIST_MAXLEN < h2.length then h2.tail else h2

/-- The futures alert decision of python:crypto_monitor.py main on the updated
history: needs at least 6 points; compares the last entry against the first;
both OI values must be present and the older one strictly positive; fires
when the percentage change is at least the 5.0 threshold. -/
def pcmOiFires (hist : List PcmHistItem) : Bool :=
  if 6 ≤ hist.length then
    match hist.getLast?, hist.head? with
    | some nowItem, some prevItem =>
      match nowItem.oi, prevItem.oi with
      | some oiNow, some oiPrev =>
        if 0 < oiPrev ∧ (5 : ℚ) ≤ (oiNow - oiPrev) / oiPrev * 100 then true else false
      | _, _ => false
    | _, _ => false
  else false

/-- Embedding of one symbol iteration of python:crypto_monitor.py main: when
no spot venue was selected (best = None), the loop CONTINUEs, so neither the
spot check nor the futures OI history update and check run for this symbol;
otherwise the spot metrics (when available) are checked against the
thresholds, the history is appended, and the futures comparison runs.
Returns (spot alert fired, futures alert fired, updated history). -/
def pcmProcessSymbol (best : Option Venue) (spotCandles : Option (List (ℚ × ℚ)))
    (oiVal : Option ℚ) (hist : List PcmHistItem) (now : Int) :
    Bool × Bool × List PcmHistItem :=
  match best with
  | none => (false, false, hist)
  | some _ =>
    let metrics := match spotCandles with
      | none => none
      | some cs => get_spot_1m_metrics cs
    let spotAlert := match metrics with
      | some m => if 50000 ≤ m.usdVolume1m ∧ 2 ≤ |m.priceChangePct| then true else false
      | none => false
    let h2 := pcmHistAppend hist
      ⟨now, oiVal, match metrics with | some m => some m.lastClose | none => none⟩
    (spotAlert, pcmOiFires h2, h2)

-- ---------------------------------------------------------------------------
-- Shared helper lemmas
-- ---------------------------------------------------------------------------

lemma mem_cacheSet (cache : List (AlertKey × Int)) (k : AlertKey) (t : Int) :
    ∀ p ∈ cacheSet cache k t, p = (k, t) ∨ p ∈ cache := by
  induction cache with
  | nil =>
    intro p hp
    simp [cacheSet] at hp
    simp [hp]
  | cons e rest ih =>
    intro p hp
    by_cases he : e.1 = k
    · simp only [cacheSet, if_pos he] at hp
      rcases List.mem_cons.1 hp with h1 | h1
      · exact Or.inl h1
      · exact Or.inr (List.mem_cons_of_mem _ h1)
    · simp only [cacheSet, if_neg he] at hp
      rcases List.mem_cons.1 hp with h1 | h1
      · exact Or.inr (h1 ▸ List.mem_cons_self _ _)
      · rcases ih p h1 with h2 | h2
        · exact Or.inl h2
        · exact Or.inr (List.mem_cons_of_mem _ h2)

-- ---------------------------------------------------------------------------
-- Claim theorems
-- ---------------------------------------------------------------------------

/-- Claim C1: the spot volume-spike rule fires exactly when the 1-interval
notional volume reaches 50,000 and the absolute percentage change reaches 2%.
First conjunct: in crypto_spy.py the decision on a two-candle series is
exactly volume (last close times last base volume) at least 50,000 AND
absolute close-over-close change at least 2%.  Second conjunct: in monitor.py
check_spot_alert the decision on the last closed candle is exactly quote
volume (close times base volume) at least 50,000 AND absolute open-to-close
move at least 2% (the candle's open is the close one interval prior).  The
remaining conjuncts are the spec's acceptance cases: closes 100 -> 102.5 with
notional volume 60,000 fires with a recorded positive change of 2.5%, and
with notional volume 40,000 there is no alert. -/
theorem spot_rule_threshold (prevClose prevVol lastClose lastVol : ℚ)
    (hprev : prevClose ≠ 0)
    (cd dummy : Candle) (o c v : ℚ)
    (ho : cd.o = some o) (hc : cd.c = some c) (hv : cd.vol = some v)
    (ho0 : o ≠ 0) (hc0 : c ≠ 0) (hv0 : v ≠ 0) :
    (spySpotFires [(prevClose, prevVol), (lastClose, lastVol)] = true ↔
       50000 ≤ lastVol * lastClose ∧
       2 ≤ |(lastClose - prevClose) / prevClose * 100|) ∧
    ((check_spot_alert [cd, dummy]).isSome = true ↔
       SPOT_MIN_USD_VALUE ≤ c * v ∧ SPOT_MIN_MOVE ≤ |(c - o) / o|) ∧
    spySpotFires [(100, 600), (205/2, 24000/41)] = true ∧
    spot_vol_price [(100, 600), (205/2, 24000/41)] = some (60000, 5/2) ∧
    spySpotFires [(100, 600), (205/2, 16000/41)] = false := by
  refine ⟨?_, ?_, ?_, ?_, ?_⟩
  · simp [spySpotFires, spot_vol_price, hprev]
  · simp [check_spot_alert, ho, hc, hv, ho0, hc0, hv0]
  · norm_num [spySpotFires, spot_vol_price, abs_of_nonneg, abs_of_nonpos]
  · norm_num [spot_vol_price]
  · norm_num [spySpotFires, spot_vol_price, abs_of_nonneg, abs_of_nonpos]

theorem spot_rule_threshold_witness :
    spySpotFires [(100, 600), (205/2, 24000/41)] = true :=
  (spot_rule_threshold 100 600 (205/2) (24000/41) (by norm_num)
    ⟨0, some 100, none, none, some (205/2), some (24000/41)⟩
    ⟨60000, none, none, none, none, none⟩ 100 (205/2) (24000/41)
    rfl rfl rfl (by norm_num) (by norm_num) (by norm_num)).2.2.1

/-- Claim C2 (amended): in monitor.py the futures OI rule fires exactly when
the prior open interest is nonzero (equivalently positive, for nonnegative
open interest) and the relative growth is AT LEAST 5%, so 1,000 -> 1,050
(exactly +5%) and 1,000 -> 1,051 fire while 1,000 -> 1,049 does not; the
crypto_spy.py variant compares STRICTLY (> 5%) against the point six samples
back, so there 1,000 -> 1,051 fires and neither 1,000 -> 1,050 nor
1,000 -> 1,049 does. -/
theorem oi_threshold_boundary :
    (∀ oiOld oiNow : ℚ, 0 ≤ oiOld →
      (oiGrowthFires oiOld oiNow = true ↔
        0 < oiOld ∧ FUTURES_OI_MIN_GROWTH ≤ (oiNow - oiOld) / oiOld)) ∧
    (∀ (a b c d : ℚ) (old oiNow : ℚ),
      spyOiFires [old, a, b, c, d] oiNow = true ↔
        old ≠ 0 ∧ FUTURES_OI_MIN_GROWTH < (oiNow - old) / old) ∧
    (check_futures_oi_alert [(0, 1000)] (some 1050) 300000).1 =
      some ⟨1000, 1050, 300000⟩ ∧
    (check_futures_oi_alert [(0, 1000)] (some 1051) 300000).1 =
      some ⟨1000, 1051, 300000⟩ ∧
    (check_futures_oi_alert [(0, 1000)] (some 1049) 300000).1 = none ∧
    spyOiFires [1000, 1000, 1000, 1000, 1000] 1050 = false ∧
    spyOiFires [1000, 1000, 1000, 1000, 1000] 1051 = true ∧
    spyOiFires [1000, 1000, 1000, 1000, 1000] 1049 = false := by
  refine ⟨?_, ?_, ?_, ?_, ?_, ?_, ?_, ?_⟩
  · intro oiOld oiNow h0
    simp only [oiGrowthFires]
    constructor
    · intro h
      split at h
      · rename_i hc
        exact ⟨lt_of_le_of_ne h0 (Ne.symm hc.1), hc.2⟩
      · exact absurd h (by simp)
    · intro h
      rw [if_pos ⟨ne_of_gt h.1, h.2⟩]
  · intro a b c d old oiNow
    simp [spyOiFires, spyOiAppend, SPY_OI_MAXLEN]
  · norm_num [check_futures_oi_alert, oiAppend, findOlder, oiGrowthFires,
      OI_DEQUE_MAXLEN, FUTURES_OI_WINDOW_MIN, FUTURES_OI_MIN_GROWTH]
  · norm_num [check_futures_oi_alert, oiAppend, findOlder, oiGrowthFires,
      OI_DEQUE_MAXLEN, FUTURES_OI_WINDOW_MIN, FUTURES_OI_MIN_GROWTH]
  · norm_num [check_futures_oi_alert, oiAppend, findOlder, oiGrowthFires,
      OI_DEQUE_MAXLEN, FUTURES_OI_WINDOW_MIN, FUTURES_OI_MIN_GROWTH]
  · norm_num [spyOiFires, spyOiAppend, SPY_OI_MAXLEN, FUTURES_OI_MIN_GROWTH]
  · norm_num [spyOiFires, spyOiAppend, SPY_OI_MAXLEN, FUTURES_OI_MIN_GROWTH]
  · norm_num [spyOiFires, spyOiAppend, SPY_OI_MAXLEN, FUTURES_OI_MIN_GROWTH]

theorem oi_threshold_boundary_witness : oiGrowthFires 1000 1050 = true :=
  (oi_threshold_boundary.1 1000 1050 (by norm_num)).mpr
    (by norm_num [FUTURES_OI_MIN_GROWTH])

/-- Claim C2 counterexample: the claim asserts that exactly 5% growth fires,
but the crypto_spy.py variant does not fire at 1,000 -> 1,050 even though the
prior open interest is positive and the growth reaches the 5% threshold. -/
theorem oi_boundary_counterexample :
    spyOiFires [1000, 1000, 1000, 1000, 1000] 1050 = false ∧
    (0:ℚ) < 1000 ∧ FUTURES_OI_MIN_GROWTH ≤ ((1050:ℚ) - 1000) / 1000 := by
  norm_num [spyOiFires, spyOiAppend, SPY_OI_MAXLEN, FUTURES_OI_MIN_GROWTH]

/-- Claim C9 (amended): the monitor.py and python:crypto_monitor.py schedulers
sleep max(minSleep, targetInterval - elapsedCycleTime) with minSleep 1s, which
is never below 1s, restores the target cadence whenever the cycle did not
overrun, and degrades to the 1s floor on overrun; the crypto_monitor.py
enhanced monitor instead sleeps the full configured interval regardless of
elapsed cycle time. -/
theorem scheduler_sleep_amended (interval elapsed : ℚ) :
    (1 ≤ pcm_loop_sleep interval elapsed) ∧
    (elapsed ≤ interval - 1 → elapsed + pcm_loop_sleep interval elapsed = interval) ∧
    (interval - 1 ≤ elapsed → pcm_loop_sleep interval elapsed = 1) ∧
    (run_forever_sleep elapsed = pcm_loop_sleep DEFAULT_LOOP_INTERVAL elapsed) ∧
    (∀ e2, enhanced_monitor_sleep interval elapsed = enhanced_monitor_sleep interval e2) := by
  refine ⟨le_max_left _ _, ?_, ?_, rfl, fun _ => rfl⟩
  · intro h
    rw [pcm_loop_sleep, max_eq_right (by linarith)]
    ring
  · intro h
    rw [pcm_loop_sleep, max_eq_left (by linarith)]

theorem scheduler_sleep_witness : (5:ℚ) + pcm_loop_sleep 20 5 = 20 :=
  (scheduler_sleep_amended 20 5).2.1 (by norm_num)

/-- Claim C9 counterexample: with a 60s target interval and a cycle that took
30s, the claimed sleep is max(1, 60 - 30) = 30s, but the crypto_monitor.py
enhanced monitor sleeps 60s. -/
theorem scheduler_sleep_counterexample :
    enhanced_monitor_sleep 60 30 = 60 ∧ max (1:ℚ) (60 - 30) = 30 ∧
    enhanced_monitor_sleep 60 30 ≠ max (1:ℚ) (60 - 30) := by
  norm_num [enhanced_monitor_sleep]

/-- Claim C10: whenever the dedup gate records a new fire (returns the
may-send result), every entry remaining in the cache is strictly younger than
the dedup TTL, and every remaining entry is either the just-fired key or was
already present before the call. -/
theorem dedup_cache_fresh (cache : List (AlertKey × Int)) (k : AlertKey) (now : Int)
    (c2 : List (AlertKey × Int)) (h : dedup cache k now = (false, c2)) :
    (∀ p ∈ c2, now - p.2 < DEDUP_TTL_SECONDS) ∧
    (∀ p ∈ c2, p.1 = k ∨ p ∈ cache) := by
  have hc2 : c2 = (cacheSet cache k now).filter
      (fun p => decide (now - p.2 < DEDUP_TTL_SECONDS)) := by
    simp only [dedup] at h
    split at h
    · split at h
      · simp at h
      · simp only [Prod.mk.injEq, true_and] at h
        exact h.symm
    · simp only [Prod.mk.injEq, true_and] at h
      exact h.symm
  subst hc2
  constructor
  · intro p hp
    have := (List.mem_filter.1 hp).2
    exact of_decide_eq_true this
  · intro p hp
    have hmem := (List.mem_filter.1 hp).1
    rcases mem_cacheSet cache k now p hmem with h1 | h1
    · exact Or.inl (by rw [h1])
    · exact Or.inr h1

theorem dedup_cache_fresh_witness :
    (∀ p ∈ [((AlertKey.oi 0 0 : AlertKey), (700:Int))],
      700 - p.2 < DEDUP_TTL_SECONDS) ∧
    (∀ p ∈ [((AlertKey.oi 0 0 : AlertKey), (700:Int))],
      p.1 = AlertKey.oi 0 0 ∨ p ∈ [((AlertKey.oi 1 0 : AlertKey), (1:Int))]) :=
  dedup_cache_fresh [(AlertKey.oi 1 0, 1)] (AlertKey.oi 0 0) 700
    [(AlertKey.oi 0 0, 700)] (by decide)

/-- Claim C6 (amended): the monitor.py open-interest window is bounded by
COUNT, not by time: appending keeps at most 60 points, dropping the oldest
only when the deque is full, and a point already stored is retained by the
update regardless of its age, with no time-based eviction. -/
theorem oi_window_count_bound (q : List (Int × ℚ)) (ts : Int) (v : ℚ) :
    (q.length ≤ OI_DEQUE_MAXLEN → (oiAppend q ts v).length ≤ OI_DEQUE_MAXLEN) ∧
    (q.length = OI_DEQUE_MAXLEN → oiAppend q ts v = q.tail ++ [(ts, v)]) ∧
    (q.length < OI_DEQUE_MAXLEN → oiAppend q ts v = q ++ [(ts, v)]) ∧
    (∀ p ∈ q, q.length < OI_DEQUE_MAXLEN → p ∈ oiAppend q ts v) := by
  have hmax : OI_DEQUE_MAXLEN = 60 := rfl
  have hlen : (q ++ [(ts, v)]).length = q.length + 1 := by
    rw [List.length_append, List.length_singleton]
  refine ⟨?_, ?_, ?_, ?_⟩
  · intro hle
    simp only [oiAppend]
    split
    · rename_i hfull
      rw [hlen] at hfull
      rw [List.length_tail, hlen]
      omega
    · rename_i hfull
      rw [hlen] at hfull
      rw [hlen]
      omega
  · intro heq
    have hfull : OI_DEQUE_MAXLEN < (q ++ [(ts, v)]).length := by
      rw [hlen, heq]
      exact Nat.lt_succ_self _
    simp only [oiAppend, if_pos hfull]
    cases q with
    | nil => rw [hmax] at heq; simp at heq
    | cons a as => simp
  · intro hlt
    have hnfull : ¬ OI_DEQUE_MAXLEN < (q ++ [(ts, v)]).length := by
      rw [hlen]
      omega
    simp only [oiAppend, if_neg hnfull]
  · intro p hp hlt
    have hnfull : ¬ OI_DEQUE_MAXLEN < (q ++ [(ts, v)]).length := by
      rw [hlen]
      omega
    simp only [oiAppend, if_neg hnfull]
    exact List.mem_append_left _ hp

theorem oi_window_count_bound_witness :
    oiAppend [((0:Int), (1:ℚ))] 1 2 = [(0, 1), (1, 2)] :=
  (oi_window_count_bound [(0, 1)] 1 2).2.2.1 (by norm_num [OI_DEQUE_MAXLEN])

/-- Claim C6 counterexample: updating the open-interest history that holds a
20-minute-old point leaves that point in the window (its timestamp is before
now minus the 5-minute retention window), the look-back comparison reads
exactly that stale point, and the rule fires from it. -/
theorem window_retention_counterexample :
    (check_futures_oi_alert [(0, 1000)] (some 1100) 1200000).2 =
      [(0, 1000), (1200000, 1100)] ∧
    (0:Int) < 1200000 - FUTURES_OI_WINDOW_MIN * 60 * 1000 ∧
    findOlder [(0, 1000), (1200000, 1100)] (1200000 - FUTURES_OI_WINDOW_MIN * 60 * 1000) =
      some (0, 1000) ∧
    (check_futures_oi_alert [(0, 1000)] (some 1100) 1200000).1 =
      some ⟨1000, 1100, 1200000⟩ := by
  norm_num [check_futures_oi_alert, oiAppend, findOlder, oiGrowthFires,
    OI_DEQUE_MAXLEN, FUTURES_OI_WINDOW_MIN, FUTURES_OI_MIN_GROWTH]

/-- Claim C7 (amended): in crypto_spy.py the futures leg runs before spot
source selection, so its alert decision and history update are unchanged by a
missing spot venue; in python:crypto_monitor.py a missing spot venue makes the
loop continue, skipping the whole symbol, including the futures open-interest
history update and check. -/
theorem futures_independence_amended (oiVal : Option ℚ) (oiHist : List ℚ)
    (m1 m2 : Option (List (ℚ × ℚ))) (ex : Option Venue)
    (candles : Option (List (ℚ × ℚ))) (oiV : Option ℚ)
    (hist : List PcmHistItem) (now : Int) :
    ((spyProcessSymbol oiVal oiHist none m1).1 = (spyProcessSymbol oiVal oiHist ex m2).1 ∧
     (spyProcessSymbol oiVal oiHist none m1).2.2 = (spyProcessSymbol oiVal oiHist ex m2).2.2) ∧
    pcmProcessSymbol none candles oiV hist now = (false, false, hist) := by
  refine ⟨?_, rfl⟩
  cases oiVal with
  | none => cases ex <;> simp [spyProcessSymbol]
  | some o =>
    cases ex with
    | none => simp [spyProcessSymbol]
    | some e => cases m2 <;> simp [spyProcessSymbol]

/-- Claim C7 counterexample: with five 1,000-valued open-interest points in
the history and a fresh value of 1,100 (+10%), python:crypto_monitor.py
produces a futures alert when a spot venue is available, but when no candidate
venue lists the symbol the per-symbol continue skips the futures check
entirely: no alert and the history is not even updated. -/
theorem futures_independence_counterexample :
    pcmProcessSymbol none none (some 1100)
      [⟨0, some 1000, none⟩, ⟨60, some 1000, none⟩, ⟨120, some 1000, none⟩,
       ⟨180, some 1000, none⟩, ⟨240, some 1000, none⟩] 300 =
      (false, false,
       [⟨0, some 1000, none⟩, ⟨60, some 1000, none⟩, ⟨120, some 1000, none⟩,
        ⟨180, some 1000, none⟩, ⟨240, some 1000, none⟩]) ∧
    pcmProcessSymbol (some Venue.binance) none (some 1100)
      [⟨0, some 1000, none⟩, ⟨60, some 1000, none⟩, ⟨120, some 1000, none⟩,
       ⟨180, some 1000, none⟩, ⟨240, some 1000, none⟩] 300 =
      (false, true,
       [⟨0, some 1000, none⟩, ⟨60, some 1000, none⟩, ⟨120, some 1000, none⟩,
        ⟨180, some 1000, none⟩, ⟨240, some 1000, none⟩, ⟨300, some 1100, none⟩]) := by
  constructor
  · rfl
  · norm_num [pcmProcessSymbol, pcmHistAppend, pcmOiFires, PCM_HIST_MAXLEN]

/-- Claim C8 (amended): monitor.py discards a last-closed candle whose open,
close or base volume is missing or ZERO (the Python falsy test) and fires no
alert from it, and the python:crypto_monitor.py futures comparison only ever
fires when both compared OI samples are present and the older one is strictly
positive; NEGATIVE prices and volumes, however, are not filtered. -/
theorem validation_amended (cd dummy : Candle) (hist : List PcmHistItem) :
    ((cd.o = none ∨ cd.c = none ∨ cd.vol = none ∨
      cd.o = some 0 ∨ cd.c = some 0 ∨ cd.vol = some 0) →
      check_spot_alert [cd, dummy] = none) ∧
    (pcmOiFires hist = true →
      ∃ nowItem prevItem oiNow oiPrev,
        hist.getLast? = some nowItem ∧ hist.head? = some prevItem ∧
        nowItem.oi = some oiNow ∧ prevItem.oi = some oiPrev ∧ 0 < oiPrev ∧
        (5 : ℚ) ≤ (oiNow - oiPrev) / oiPrev * 100) := by
  constructor
  · intro h
    rcases hco : cd.o with _ | o
    · simp [check_spot_alert, hco]
    rcases hcc : cd.c with _ | c
    · simp [check_spot_alert, hco, hcc]
    rcases hcv : cd.vol with _ | v
    · simp [check_spot_alert, hco, hcc, hcv]
    have hz : o = 0 ∨ c = 0 ∨ v = 0 := by
      rcases h with h | h | h | h | h | h
      · rw [hco] at h; exact absurd h (by simp)
      · rw [hcc] at h; exact absurd h (by simp)
      · rw [hcv] at h; exact absurd h (by simp)
      · rw [hco] at h; exact Or.inl (Option.some.inj h)
      · rw [hcc] at h; exact Or.inr (Or.inl (Option.some.inj h))
      · rw [hcv] at h; exact Or.inr (Or.inr (Option.some.inj h))
    simp [check_spot_alert, hco, hcc, hcv, hz]
  · intro h
    unfold pcmOiFires at h
    split at h
    · split at h
      · rename_i nowItem prevItem hlast hhead
        split at h
        · rename_i oiNow oiPrev hnow hprev
          split at h
          · rename_i hcond
            exact ⟨nowItem, prevItem, oiNow, oiPrev, hlast, hhead, hnow, hprev,
              hcond.1, hcond.2⟩
          · exact absurd h (by simp)
        · exact absurd h (by simp)
      · exact absurd h (by simp)
    · exact absurd h (by simp)

theorem validation_amended_witness :
    check_spot_alert [⟨0, some 100, none, none, some 0, some 600⟩,
      ⟨60, none, none, none, none, none⟩] = none :=
  (validation_amended ⟨0, some 100, none, none, some 0, some 600⟩
    ⟨60, none, none, none, none, none⟩ []).1
    (Or.inr (Or.inr (Or.inr (Or.inr (Or.inl rfl)))))

/-- Claim C8 counterexample: a candle with negative open and close prices and
a negative base volume passes the falsy-only validation of monitor.py
check_spot_alert, its quote volume computes to +60,000, its move to about
2.04%, and an alert IS produced from the malformed sample. -/
theorem validation_counterexample :
    check_spot_alert [⟨0, some (-98), none, none, some (-100), some (-600)⟩,
      ⟨60000, none, none, none, none, none⟩] =
      some ⟨-98, -100, -600, 60000, 0⟩ := by
  norm_num [check_spot_alert, SPOT_MIN_USD_VALUE, SPOT_MIN_MOVE, abs_of_nonneg,
    abs_of_nonpos, abs_div, abs_sub_comm]

-- ---------------------------------------------------------------------------
-- Helper lemmas for the look-back scan (claim C4)
-- ---------------------------------------------------------------------------

lemma findOlder_append (q : List (Int × ℚ)) (x : Int × ℚ) (cutoff : Int) :
    findOlder (q ++ [x]) cutoff =
      if x.1 ≤ cutoff then some x else findOlder q cutoff := by
  simp [findOlder, List.foldl_append]

lemma findOlder_none_iff (q : List (Int × ℚ)) (cutoff : Int) :
    findOlder q cutoff = none ↔ ∀ p ∈ q, cutoff < p.1 := by
  induction q using List.reverseRecOn with
  | nil => simp [findOlder]
  | append_singleton q x ih =>
    rw [findOlder_append]
    constructor
    · intro h p hp
      by_cases hx : x.1 ≤ cutoff
      · rw [if_pos hx] at h; exact absurd h (by simp)
      · rw [if_neg hx] at h
        rcases List.mem_append.1 hp with h1 | h1
        · exact ih.1 h p h1
        · rw [List.mem_singleton.1 h1]; omega
    · intro h
      have hx : ¬ x.1 ≤ cutoff := by
        have := h x (List.mem_append_right _ (List.mem_singleton_self _))
        omega
      rw [if_neg hx]
      exact ih.2 (fun p hp => h p (List.mem_append_left _ hp))

lemma findOlder_spec (cutoff : Int) :
    ∀ q : List (Int × ℚ), q.Pairwise (fun a b => a.1 ≤ b.1) →
      ∀ p, findOlder q cutoff = some p →
        p ∈ q ∧ p.1 ≤ cutoff ∧ ∀ r ∈ q, r.1 ≤ cutoff → r.1 ≤ p.1 := by
  intro q
  induction q using List.reverseRecOn with
  | nil => intro _ p h; simp [findOlder] at h
  | append_singleton q x ih =>
    intro hsort p h
    rw [findOlder_append] at h
    have hsq : q.Pairwise (fun a b => a.1 ≤ b.1) := (List.pairwise_append.1 hsort).1
    have hqx : ∀ r ∈ q, r.1 ≤ x.1 := fun r hr =>
      (List.pairwise_append.1 hsort).2.2 r hr x (List.mem_singleton_self _)
    by_cases hx : x.1 ≤ cutoff
    · rw [if_pos hx] at h
      obtain rfl : p = x := (Option.some.inj h).symm
      refine ⟨List.mem_append_right _ (List.mem_singleton_self _), hx, ?_⟩
      intro r hr _
      rcases List.mem_append.1 hr with h1 | h1
      · exact hqx r h1
      · rw [List.mem_singleton.1 h1]
    · rw [if_neg hx] at h
      obtain ⟨hmem, hple, hmaxq⟩ := ih hsq p h
      refine ⟨List.mem_append_left _ hmem, hple, ?_⟩
      intro r hr hrc
      rcases List.mem_append.1 hr with h1 | h1
      · exact hmaxq r h1 hrc
      · rw [List.mem_singleton.1 h1] at hrc
        exact absurd hrc hx

/-- Claim C4: when no open-interest sample lies at or before the cutoff
now - W, monitor.py check_futures_oi_alert returns no alert (it simply
returns, no error path exists); on a timestamp-sorted history the scan
implements valueAtOrBefore: any point it returns is a stored point with
timestamp at most the cutoff and no qualifying stored point is more recent;
and the python:crypto_monitor.py variant likewise fires nothing while its
history is shorter than its 6-point look-back. -/
theorem oi_lookback_no_history (q : List (Int × ℚ)) (oiNew : ℚ) (now : Int)
    (hsort : (oiAppend q now oiNew).Pairwise (fun a b => a.1 ≤ b.1)) :
    ((∀ p ∈ oiAppend q now oiNew, now - FUTURES_OI_WINDOW_MIN * 60 * 1000 < p.1) →
      (check_futures_oi_alert q (some oiNew) now).1 = none) ∧
    (∀ p, findOlder (oiAppend q now oiNew)
        (now - FUTURES_OI_WINDOW_MIN * 60 * 1000) = some p →
      p ∈ oiAppend q now oiNew ∧
      p.1 ≤ now - FUTURES_OI_WINDOW_MIN * 60 * 1000 ∧
      ∀ r ∈ oiAppend q now oiNew,
        r.1 ≤ now - FUTURES_OI_WINDOW_MIN * 60 * 1000 → r.1 ≤ p.1) ∧
    (∀ hist : List PcmHistItem, hist.length < 6 → pcmOiFires hist = false) := by
  refine ⟨?_, ?_, ?_⟩
  · intro hall
    have hnone : findOlder (oiAppend q now oiNew)
        (now - FUTURES_OI_WINDOW_MIN * 60 * 1000) = none :=
      (findOlder_none_iff _ _).2 hall
    simp [check_futures_oi_alert, hnone]
  · exact findOlder_spec _ _ hsort
  · intro hist hlen
    rw [pcmOiFires, if_neg (by omega)]

theorem oi_lookback_no_history_witness :
    (check_futures_oi_alert [] (some 1) 0).1 = none :=
  (oi_lookback_no_history [] 1 0 (by simp [oiAppend, OI_DEQUE_MAXLEN])).1
    (by norm_num [oiAppend, OI_DEQUE_MAXLEN, FUTURES_OI_WINDOW_MIN])

-- ---------------------------------------------------------------------------
-- Helper lemmas for spot source selection (claim C5)
-- ---------------------------------------------------------------------------

lemma bestSpot_foldl_vol (cands : List (Venue × SpyFetch)) :
    ∀ a0 : Option Venue × ℚ,
      a0.2 ≤ (cands.foldl bestSpotStep a0).2 ∧
      ∀ c ∈ cands, ∀ w, c.2 = SpyFetch.ticker w →
        w ≤ (cands.foldl bestSpotStep a0).2 := by
  induction cands with
  | nil => intro a0; exact ⟨le_refl _, by simp⟩
  | cons cand rest ih =>
    intro a0
    rw [List.foldl_cons]
    obtain ⟨ih1, ih2⟩ := ih (bestSpotStep a0 cand)
    have hstep : a0.2 ≤ (bestSpotStep a0 cand).2 := by
      cases h2 : cand.2 with
      | unlisted => simp [bestSpotStep, h2]
      | failed => simp [bestSpotStep, h2]
      | ticker v =>
        simp only [bestSpotStep, h2]
        split
        · rename_i hlt; exact le_of_lt hlt
        · exact le_refl _
    refine ⟨le_trans hstep ih1, ?_⟩
    intro c hc w hw
    rcases List.mem_cons.1 hc with h1 | h1
    · subst h1
      have hw2 : w ≤ (bestSpotStep a0 c).2 := by
        simp only [bestSpotStep, hw]
        split
        · exact le_refl _
        · rename_i hnlt; exact le_of_not_lt hnlt
      exact le_trans hw2 ih1
    · exact ih2 c h1 w hw

lemma bestSpot_foldl_cases (cands : List (Venue × SpyFetch)) :
    ∀ a0 : Option Venue × ℚ,
      cands.foldl bestSpotStep a0 = a0 ∨
      ∃ c ∈ cands, ∃ w, c.2 = SpyFetch.ticker w ∧
        cands.foldl bestSpotStep a0 = (some c.1, w) ∧ a0.2 < w := by
  induction cands with
  | nil => intro a0; exact Or.inl rfl
  | cons cand rest ih =>
    intro a0
    rw [List.foldl_cons]
    have hkeep : bestSpotStep a0 cand = a0 →
        (rest.foldl bestSpotStep a0 = a0 ∨
          ∃ c ∈ cand :: rest, ∃ w, c.2 = SpyFetch.ticker w ∧
            rest.foldl bestSpotStep a0 = (some c.1, w) ∧ a0.2 < w) := by
      intro _
      rcases ih a0 with h | ⟨c, hc, w, hw, heq, hlt⟩
      · exact Or.inl h
      · exact Or.inr ⟨c, List.mem_cons_of_mem _ hc, w, hw, heq, hlt⟩
    cases h2 : cand.2 with
    | unlisted =>
      have hs : bestSpotStep a0 cand = a0 := by simp [bestSpotStep, h2]
      rw [hs]
      exact hkeep hs
    | failed =>
      have hs : bestSpotStep a0 cand = a0 := by simp [bestSpotStep, h2]
      rw [hs]
      exact hkeep hs
    | ticker v =>
      by_cases hlt : a0.2 < v
      · have hs : bestSpotStep a0 cand = (some cand.1, v) := by
          simp [bestSpotStep, h2, hlt]
        rw [hs]
        rcases ih (some cand.1, v) with h | ⟨c, hc, w, hw, heq, hlt2⟩
        · exact Or.inr ⟨cand, List.mem_cons_self _ _, v, h2, h, hlt⟩
        · exact Or.inr ⟨c, List.mem_cons_of_mem _ hc, w, hw, heq, lt_trans hlt hlt2⟩
      · have hs : bestSpotStep a0 cand = a0 := by
          simp [bestSpotStep, h2, hlt]
        rw [hs]
        exact hkeep hs

/-- Claim C5 (amended): crypto_spy.py best_spot_ex returns a venue that
reported the strictly largest positive 24h quote volume among listed,
successfully fetched candidates, with ties won by the earlier candidate, and
returns none when every candidate is unlisted or failed; monitor.py
pick_top_spot_exchange, by contrast, treats a failed fetch_tickers as volume
0.0 against an initial best of -1.0, so a candidate whose fetch failed can
still be selected over later candidates. -/
theorem source_selection_max :
    (∀ (cands : List (Venue × SpyFetch)) (name : Venue),
      best_spot_ex cands = some name →
      ∃ v, (name, SpyFetch.ticker v) ∈ cands ∧ 0 < v ∧
        ∀ c ∈ cands, ∀ w, c.2 = SpyFetch.ticker w → w ≤ v) ∧
    (∀ cands : List (Venue × SpyFetch),
      (∀ c ∈ cands, c.2 = SpyFetch.unlisted ∨ c.2 = SpyFetch.failed) →
      best_spot_ex cands = none) ∧
    best_spot_ex [(Venue.okx, SpyFetch.unlisted), (Venue.bybit, SpyFetch.ticker 2000000),
      (Venue.kucoin, SpyFetch.ticker 5000000)] = some Venue.kucoin ∧
    best_spot_ex [(Venue.binance, SpyFetch.ticker 5), (Venue.okx, SpyFetch.ticker 5)] =
      some Venue.binance ∧
    pick_top_spot_exchange [(Venue.binance, PickFetch.tickersFail),
      (Venue.okx, PickFetch.ok 0)] = some Venue.binance := by
  refine ⟨?_, ?_, ?_, ?_, ?_⟩
  · intro cands name h
    rcases bestSpot_foldl_cases cands (none, 0) with h0 | ⟨c, hc, w, hw, heq, hlt⟩
    · rw [best_spot_ex, h0] at h
      exact absurd h (by simp)
    · rw [best_spot_ex, heq] at h
      have hname : c.1 = name := Option.some.inj h
      refine ⟨w, ?_, hlt, ?_⟩
      · have : c = (name, SpyFetch.ticker w) := by
          rw [Prod.ext_iff]
          exact ⟨hname, hw⟩
        rw [← this]
        exact hc
      · intro c2 hc2 w2 hw2
        have := (bestSpot_foldl_vol cands (none, 0)).2 c2 hc2 w2 hw2
        rw [heq] at this
        exact this
  · intro cands hall
    rcases bestSpot_foldl_cases cands (none, 0) with h0 | ⟨c, hc, w, hw, _, _⟩
    · rw [best_spot_ex, h0]
    · rcases hall c hc with h1 | h1 <;> rw [h1] at hw <;> exact absurd hw (by simp)
  · norm_num [best_spot_ex, bestSpotStep]
  · norm_num [best_spot_ex, bestSpotStep]
  · norm_num [pick_top_spot_exchange, estimate_exchange_24h_quote_volume]

theorem source_selection_max_witness :
    best_spot_ex [(Venue.okx, SpyFetch.unlisted)] = none :=
  source_selection_max.2.1 [(Venue.okx, SpyFetch.unlisted)]
    (by intro c hc; rw [List.mem_singleton.1 hc]; exact Or.inl rfl)

/-- Claim C5 counterexample: per the claim (and the spec's acceptance case),
when every candidate's fetch fails selection must return none; monitor.py
pick_top_spot_exchange instead returns the FIRST candidate, binance, because
estimate_exchange_24h_quote_volume maps a failed fetch_tickers to volume 0.0,
which beats the initial best volume of -1.0. -/
theorem source_selection_counterexample :
    pick_top_spot_exchange [(Venue.binance, PickFetch.tickersFail),
      (Venue.okx, PickFetch.tickersFail), (Venue.bybit, PickFetch.tickersFail),
      (Venue.kucoin, PickFetch.tickersFail)] = some Venue.binance ∧
    some Venue.binance ≠ (none : Option Venue) := by
  refine ⟨?_, by simp⟩
  norm_num [pick_top_spot_exchange, estimate_exchange_24h_quote_volume]

-- ---------------------------------------------------------------------------
-- Helper lemmas for the dedup cache (claim C3)
-- ---------------------------------------------------------------------------

lemma cacheGet_cacheSet_self (cache : List (AlertKey × Int)) (k : AlertKey) (t : Int) :
    cacheGet (cacheSet cache k t) k = some t := by
  induction cache with
  | nil => simp [cacheSet, cacheGet]
  | cons e rest ih =>
    by_cases he : e.1 = k
    · simp [cacheSet, if_pos he, cacheGet]
    · simp [cacheSet, if_neg he, cacheGet, he, ih]

lemma cacheGet_cacheSet_ne (cache : List (AlertKey × Int)) (k key : AlertKey)
    (t : Int) (hne : k ≠ key) :
    cacheGet (cacheSet cache k t) key = cacheGet cache key := by
  induction cache with
  | nil => simp [cacheSet, cacheGet, hne]
  | cons e rest ih =>
    by_cases he : e.1 = k
    · have he2 : e.1 ≠ key := by rw [he]; exact hne
      simp [cacheSet, if_pos he, cacheGet, hne, he2]
    · simp only [cacheSet, if_neg he, cacheGet, ih]

lemma keys_cacheSet_subset (cache : List (AlertKey × Int)) (k : AlertKey) (t : Int) :
    ∀ x ∈ (cacheSet cache k t).map Prod.fst, x = k ∨ x ∈ cache.map Prod.fst := by
  induction cache with
  | nil =>
    intro x hx
    simp [cacheSet] at hx
    exact Or.inl hx
  | cons e rest ih =>
    intro x hx
    by_cases he : e.1 = k
    · simp only [cacheSet, if_pos he, List.map_cons, List.mem_cons] at hx
      rcases hx with hx | hx
      · exact Or.inl hx
      · exact Or.inr (by simp [hx])
    · simp only [cacheSet, if_neg he, List.map_cons, List.mem_cons] at hx
      rcases hx with hx | hx
      · exact Or.inr (by simp [hx])
      · rcases ih x hx with h1 | h1
        · exact Or.inl h1
        · exact Or.inr (by simp [h1])

lemma nodup_keys_cacheSet (cache : List (AlertKey × Int)) (k : AlertKey) (t : Int)
    (h : (cache.map Prod.fst).Nodup) :
    ((cacheSet cache k t).map Prod.fst).Nodup := by
  induction cache with
  | nil => simp [cacheSet]
  | cons e rest ih =>
    rw [List.map_cons, List.nodup_cons] at h
    by_cases he : e.1 = k
    · simp only [cacheSet, if_pos he, List.map_cons, List.nodup_cons]
      exact ⟨he ▸ h.1, h.2⟩
    · simp only [cacheSet, if_neg he, List.map_cons, List.nodup_cons]
      refine ⟨?_, ih h.2⟩
      intro hx
      rcases keys_cacheSet_subset rest k t e.1 hx with h1 | h1
      · exact he h1
      · exact h.1 h1

lemma nodup_keys_filter (cache : List (AlertKey × Int)) (p : AlertKey × Int → Bool)
    (h : (cache.map Prod.fst).Nodup) :
    ((cache.filter p).map Prod.fst).Nodup :=
  List.Nodup.sublist (List.Sublist.map Prod.fst (List.filter_sublist cache)) h

lemma mem_of_cacheGet (cache : List (AlertKey × Int)) (key : AlertKey) (v : Int)
    (h : cacheGet cache key = some v) : (key, v) ∈ cache := by
  induction cache with
  | nil => simp [cacheGet] at h
  | cons e rest ih =>
    by_cases he : e.1 = key
    · simp only [cacheGet, if_pos he] at h
      have he2 : e = (key, v) := by
        rw [Prod.ext_iff]
        exact ⟨he, Option.some.inj h⟩
      rw [← he2]
      exact List.mem_cons_self _ _
    · simp only [cacheGet, if_neg he] at h
      exact List.mem_cons_of_mem _ (ih h)

lemma cacheGet_of_mem (cache : List (AlertKey × Int)) (key : AlertKey) (v : Int)
    (hnd : (cache.map Prod.fst).Nodup) (h : (key, v) ∈ cache) :
    cacheGet cache key = some v := by
  induction cache with
  | nil => simp at h
  | cons e rest ih =>
    rw [List.map_cons, List.nodup_cons] at hnd
    rcases List.mem_cons.1 h with h1 | h1
    · rw [← h1]
      simp [cacheGet]
    · by_cases he : e.1 = key
      · exfalso
        apply hnd.1
        rw [he]
        have : Prod.fst (key, v) ∈ rest.map Prod.fst := List.mem_map_of_mem Prod.fst h1
        exact this
      · simp only [cacheGet, if_neg he]
        exact ih hnd.2 h1

lemma cacheGet_filter (cache : List (AlertKey × Int)) (key : AlertKey) (v : Int)
    (p : AlertKey × Int → Bool)
    (hnd : (cache.map Prod.fst).Nodup) (h : cacheGet cache key = some v) :
    cacheGet (cache.filter p) key = if p (key, v) = true then some v else none := by
  by_cases hp : p (key, v) = true
  · rw [if_pos hp]
    exact cacheGet_of_mem _ _ _ (nodup_keys_filter _ _ hnd)
      (List.mem_filter.2 ⟨mem_of_cacheGet _ _ _ h, hp⟩)
  · rw [if_neg hp]
    rcases hg : cacheGet (cache.filter p) key with _ | w
    · rfl
    · exfalso
      have hmem := mem_of_cacheGet _ _ _ hg
      have h2 := List.mem_filter.1 hmem
      have h3 : cacheGet cache key = some w := cacheGet_of_mem _ _ _ hnd h2.1
      rw [h] at h3
      have hw : w = v := (Option.some.inj h3).symm
      rw [hw] at h2
      exact hp h2.2

lemma runDedup_subset : ∀ (ops cache : List (AlertKey × Int)),
    ∀ e ∈ runDedup cache ops, e ∈ ops := by
  intro ops
  induction ops with
  | nil => intro cache e he; simp [runDedup] at he
  | cons op rest ih =>
    intro cache e he
    simp only [runDedup] at he
    by_cases hr : (dedup cache op.1 op.2).1 = true
    · rw [if_pos hr] at he
      exact List.mem_cons_of_mem _ (ih _ e he)
    · rw [if_neg hr] at he
      rcases List.mem_cons.1 he with h1 | h1
      · exact h1 ▸ List.mem_cons_self _ _
      · exact List.mem_cons_of_mem _ (ih _ e h1)

/-- Core invariant of the dedup ledger: over any trigger sequence with
positive, non-decreasing times, the dispatched events carrying one fixed key
are spaced at least the TTL apart, and when the starting cache already holds
a time for that key, every dispatched event with that key is at least a TTL
after it. -/
lemma runDedup_key_spacing (k : AlertKey) :
    ∀ (ops cache : List (AlertKey × Int)),
      (cache.map Prod.fst).Nodup →
      (∀ e ∈ cache, 0 < e.2) →
      (∀ op ∈ ops, 0 < op.2) →
      ops.Pairwise (fun a b => a.2 ≤ b.2) →
      (∀ e ∈ cache, ∀ op ∈ ops, e.2 ≤ op.2) →
      ((runDedup cache ops).filter (fun e => decide (e.1 = k))).Pairwise
          (fun a b => a.2 + DEDUP_TTL_SECONDS ≤ b.2) ∧
      (∀ t0, cacheGet cache k = some t0 →
        ∀ e ∈ (runDedup cache ops).filter (fun e => decide (e.1 = k)),
          t0 + DEDUP_TTL_SECONDS ≤ e.2) := by
  intro ops
  induction ops with
  | nil =>
    intro cache _ _ _ _ _
    simp [runDedup]
  | cons op rest ih =>
    intro cache hnd hcpos hopos hmono hce
    obtain ⟨k2, t⟩ := op
    have httl : DEDUP_TTL_SECONDS = 600 := rfl
    have hpc := List.pairwise_cons.1 hmono
    have ht : (0:Int) < t := hopos (k2, t) (List.mem_cons_self _ _)
    have htrest : ∀ o ∈ rest, t ≤ o.2 := fun o ho => hpc.1 o ho
    have hrpos : ∀ o ∈ rest, 0 < o.2 := fun o ho => hopos o (List.mem_cons_of_mem _ ho)
    by_cases hhit : ∃ ts, cacheGet cache k2 = some ts ∧ ts ≠ 0 ∧
        t - ts < DEDUP_TTL_SECONDS
    · obtain ⟨ts, hts, hne, hlt⟩ := hhit
      have hd : dedup cache k2 t = (true, cache) := by
        simp [dedup, hts, hne, hlt]
      have hrun : runDedup cache ((k2, t) :: rest) = runDedup cache rest := by
        simp [runDedup, hd]
      rw [hrun]
      exact ih cache hnd hcpos hrpos hpc.2
        (fun e he o ho => hce e he o (List.mem_cons_of_mem _ ho))
    · have hd : dedup cache k2 t = (false,
          (cacheSet cache k2 t).filter
            (fun p => decide (t - p.2 < DEDUP_TTL_SECONDS))) := by
        rcases hg : cacheGet cache k2 with _ | ts
        · simp [dedup, hg]
        · have hcond : ¬ (ts ≠ 0 ∧ t - ts < DEDUP_TTL_SECONDS) := fun hc =>
            hhit ⟨ts, hg, hc.1, hc.2⟩
          simp only [dedup, hg, if_neg hcond]
      have hrun : runDedup cache ((k2, t) :: rest) =
          (k2, t) :: runDedup ((cacheSet cache k2 t).filter
            (fun p => decide (t - p.2 < DEDUP_TTL_SECONDS))) rest := by
        simp [runDedup, hd]
      have hndset : ((cacheSet cache k2 t).map Prod.fst).Nodup :=
        nodup_keys_cacheSet cache k2 t hnd
      have hnd2 : (((cacheSet cache k2 t).filter
          (fun p => decide (t - p.2 < DEDUP_TTL_SECONDS))).map Prod.fst).Nodup :=
        nodup_keys_filter _ _ hndset
      have hmem2 : ∀ e ∈ (cacheSet cache k2 t).filter
          (fun p => decide (t - p.2 < DEDUP_TTL_SECONDS)), e = (k2, t) ∨ e ∈ cache := by
        intro e he
        exact mem_cacheSet cache k2 t e (List.mem_filter.1 he).1
      have hcpos2 : ∀ e ∈ (cacheSet cache k2 t).filter
          (fun p => decide (t - p.2 < DEDUP_TTL_SECONDS)), 0 < e.2 := by
        intro e he
        rcases hmem2 e he with h1 | h1
        · rw [h1]; exact ht
        · exact hcpos e h1
      have hce2 : ∀ e ∈ (cacheSet cache k2 t).filter
          (fun p => decide (t - p.2 < DEDUP_TTL_SECONDS)), ∀ o ∈ rest, e.2 ≤ o.2 := by
        intro e he o ho
        rcases hmem2 e he with h1 | h1
        · rw [h1]; exact htrest o ho
        · exact le_trans (hce e h1 (k2, t) (List.mem_cons_self _ _)) (htrest o ho)
      obtain ⟨ihp, ihb⟩ := ih ((cacheSet cache k2 t).filter
        (fun p => decide (t - p.2 < DEDUP_TTL_SECONDS))) hnd2 hcpos2 hrpos hpc.2 hce2
      rw [hrun]
      by_cases hk : k2 = k
      · subst hk
        have hfc : (((k2, t) :: runDedup ((cacheSet cache k2 t).filter
            (fun p => decide (t - p.2 < DEDUP_TTL_SECONDS))) rest).filter
              (fun e => decide (e.1 = k2))) =
            (k2, t) :: ((runDedup ((cacheSet cache k2 t).filter
              (fun p => decide (t - p.2 < DEDUP_TTL_SECONDS))) rest).filter
                (fun e => decide (e.1 = k2))) := by
          simp [List.filter_cons]
        rw [hfc]
        have hg2 : cacheGet ((cacheSet cache k2 t).filter
            (fun p => decide (t - p.2 < DEDUP_TTL_SECONDS))) k2 = some t := by
          rw [cacheGet_filter _ _ _ _ hndset (cacheGet_cacheSet_self cache k2 t)]
          rw [if_pos]
          simp [DEDUP_TTL_SECONDS]
        have hbound := ihb t hg2
        constructor
        · exact List.pairwise_cons.2 ⟨fun e he => hbound e he, ihp⟩
        · intro t0 ht0 e he
          have ht0pos : 0 < t0 := hcpos _ (mem_of_cacheGet _ _ _ ht0)
          have hge : DEDUP_TTL_SECONDS ≤ t - t0 := by
            by_contra hcon
            exact hhit ⟨t0, ht0, ne_of_gt ht0pos, lt_of_not_le hcon⟩
          rcases List.mem_cons.1 he with h1 | h1
          · rw [h1]
            omega
          · have := hbound e h1
            omega
      · have hfc : (((k2, t) :: runDedup ((cacheSet cache k2 t).filter
            (fun p => decide (t - p.2 < DEDUP_TTL_SECONDS))) rest).filter
              (fun e => decide (e.1 = k))) =
            ((runDedup ((cacheSet cache k2 t).filter
              (fun p => decide (t - p.2 < DEDUP_TTL_SECONDS))) rest).filter
                (fun e => decide (e.1 = k))) := by
          simp [List.filter_cons, hk]
        rw [hfc]
        refine ⟨ihp, ?_⟩
        intro t0 ht0 e he
        have hgset : cacheGet (cacheSet cache k2 t) k = some t0 := by
          rw [cacheGet_cacheSet_ne cache k2 k t hk]
          exact ht0
        have hgf := cacheGet_filter (cacheSet cache k2 t) k t0
          (fun p => decide (t - p.2 < DEDUP_TTL_SECONDS)) hndset hgset
        by_cases hsurv : t - t0 < DEDUP_TTL_SECONDS
        · rw [if_pos (decide_eq_true hsurv)] at hgf
          exact ihb t0 hgf e he
        · have hge : DEDUP_TTL_SECONDS ≤ t - t0 := le_of_not_lt hsurv
          have hein : e ∈ rest :=
            runDedup_subset rest _ e (List.mem_filter.1 he).1
          have hte := htrest e hein
          omega

/-- Claim C3 (amended): the dedup gate guarantees the cooldown only per exact
dedup KEY: over any trigger sequence with positive, non-decreasing times, no
two dispatched events carrying the same key are dispatched less than
DEDUP_TTL_SECONDS apart.  Because the spot key includes the candle timestamp
and the futures key a 5-minute window index, this does not extend to
(symbol, kind) pairs. -/
theorem dedup_per_key_cooldown (ops : List (AlertKey × Int)) (k : AlertKey)
    (hpos : ∀ op ∈ ops, 0 < op.2)
    (hmono : ops.Pairwise (fun a b => a.2 ≤ b.2)) :
    ((runDedup [] ops).filter (fun e => decide (e.1 = k))).Pairwise
      (fun a b => a.2 + DEDUP_TTL_SECONDS ≤ b.2) :=
  (runDedup_key_spacing k ops [] (by simp) (by simp) hpos hmono (by simp)).1

theorem dedup_per_key_cooldown_witness :
    ((runDedup [] [(AlertKey.oi 7 0, 100), (AlertKey.oi 7 0, 200),
        (AlertKey.oi 7 0, 800)]).filter
      (fun e => decide (e.1 = AlertKey.oi 7 0))).Pairwise
      (fun a b => a.2 + DEDUP_TTL_SECONDS ≤ b.2) :=
  dedup_per_key_cooldown [(AlertKey.oi 7 0, 100), (AlertKey.oi 7 0, 200),
    (AlertKey.oi 7 0, 800)] (AlertKey.oi 7 0) (by decide) (by decide)

/-- Claim C3 counterexample: two spot alerts for the SAME venue and symbol but
different candle timestamps form different dedup keys, so both pass the gate
and are dispatched 60 seconds apart, far less than the 600-second cooldown --
contradicting the claim that at most one alert per (symbol, kind) is
dispatched within the cooldown window. -/
theorem dedup_same_kind_counterexample :
    runDedup [] [(AlertKey.spot Venue.binance 0 1000000, 1000),
                 (AlertKey.spot Venue.binance 0 1060000, 1060)] =
      [(AlertKey.spot Venue.binance 0 1000000, 1000),
       (AlertKey.spot Venue.binance 0 1060000, 1060)] ∧
    (1060 : Int) - 1000 < DEDUP_TTL_SECONDS := by
  decide

